import Mathlib

/-!
Shallow embedding of `scrape.py`, the One Piece TCG to TCG Arena card-list
generator.  The embedding covers the Collector (the `add_cards` closure of
`fetch_all_cards`: variant filtering and first-seen deduplication), the
Transformer (`convert_to_tcg_arena`: defaults, numeric coercion, set-code
derivation, layout flag, insertion-ordered output mapping) and the exit
decision of `main`, over a model of the loosely typed JSON records the
upstream API returns.
-/

namespace Scrape

/-- A loosely typed JSON scalar as Python sees it: `None`, a bool, an
integer, a float (modelled as a rational, covering every finite float) or
a string.  These are the shapes the numeric card fields may carry. -/
inductive PyVal where
  | none
  | vbool (b : Bool)
  | vint (n : Int)
  | vfloat (q : ℚ)
  | vstr (s : String)
deriving DecidableEq, Repr

/-- One raw card object from the API, with exactly the keys `scrape.py`
reads.  `Option.none` models an absent key; the identifier, name, category
and image fields are strings when present, while the four numeric fields
keep their loose `PyVal` typing.  The field `attr` stands for the JSON key
`"attribute"` (a reserved word here). -/
structure RawRecord where
  card_set_id : Option String
  card_image_id : Option String
  card_name : Option String
  card_type : Option String
  card_cost : PyVal
  card_power : PyVal
  counter_amount : PyVal
  life : PyVal
  card_color : Option String
  card_text : Option String
  attr : Option String
  sub_types : Option String
  rarity : Option String
  set_name : Option String
  card_image : Option String
  set_id : Option String
deriving DecidableEq, Repr

/-- `card.get("card_set_id", "")`: the dedup and output key of a record. -/
def keyOf (r : RawRecord) : String := r.card_set_id.getD ""

/-- `card.get("card_image_id") or ""` (an absent or empty value falls back
to the empty string either way). -/
def imgOf (r : RawRecord) : String := r.card_image_id.getD ""

/-- Does the second character list start with the first? -/
def leadsWith : List Char → List Char → Bool
  | [], _ => true
  | _ :: _, [] => false
  | a :: as, b :: bs => a == b && leadsWith as bs

/-- Does `needle` occur as a contiguous run inside the second list? -/
def containsSub (needle : List Char) : List Char → Bool
  | [] => needle.isEmpty
  | h :: t => leadsWith needle (h :: t) || containsSub needle t

/-- Python `needle in hay` on strings. -/
def strContains (hay needle : String) : Bool := containsSub needle.data hay.data

/-- The parallel/alternate-art filter of `add_cards`: `"_p" in img_id`. -/
def filteredOut (r : RawRecord) : Bool := strContains (imgOf r) "_p"

/-- The loop body of `add_cards` in `fetch_all_cards`: walk the fetched
list, skip any record whose image id contains `"_p"`, and append a record
exactly when its `card_set_id` is non-empty and unseen, recording the key
as seen.  Returns the updated seen set (modelled as a list used only for
membership) and the list of records newly appended to `all_raw`, in
order; the count `add_cards` returns is the length of that list. -/
def addCards : List RawRecord → List String → List String × List RawRecord
  | [], seen => (seen, [])
  | c :: cs, seen =>
    if filteredOut c then addCards cs seen
    else if keyOf c ≠ "" ∧ keyOf c ∉ seen then
      ((addCards cs (keyOf c :: seen)).1, c :: (addCards cs (keyOf c :: seen)).2)
    else addCards cs seen

/-- The characters of `l` before the last occurrence of `sep` (meaningful
when `sep` occurs): reverse, drop the reversed tail up to and including
the last `sep`, reverse back. -/
def beforeLast (sep : Char) (l : List Char) : List Char :=
  ((l.reverse.dropWhile (fun c => c != sep)).drop 1).reverse

/-- `card_set_id.rsplit("-", 1)[0] if "-" in card_set_id else card_set_id`
(line 136): the derived short set code. -/
def set_code (cid : String) : String :=
  if strContains cid "-" then String.mk (beforeLast '-' cid.data) else cid

/-- After a leading digit: digits, with single underscores allowed only
between digits (the shape Python's `int` accepts after the first digit). -/
def digitsTail : List Char → Bool
  | [] => true
  | '_' :: c :: rest => c.isDigit && digitsTail rest
  | c :: rest => c.isDigit && digitsTail rest

/-- A valid unsigned decimal literal for Python `int`: nonempty, starting
with a digit, underscores only between digits. -/
def digitsOk : List Char → Bool
  | [] => false
  | c :: rest => c.isDigit && digitsTail rest

/-- Numeric value of a list of decimal digits (underscores already
removed). -/
def natOfDigits (l : List Char) : Nat :=
  l.foldl (fun a c => a * 10 + (c.toNat - 48)) 0

/-- Python `int(s)` on a string: strip surrounding whitespace, optional
sign, decimal digits with underscore grouping; `Option.none` models a
raised `ValueError`. -/
def parsePyInt (s : String) : Option Int :=
  let t := ((s.data.dropWhile Char.isWhitespace).reverse.dropWhile Char.isWhitespace).reverse
  match t with
  | '+' :: rest =>
    if digitsOk rest then some (Int.ofNat (natOfDigits (rest.filter (fun c => c != '_'))))
    else Option.none
  | '-' :: rest =>
    if digitsOk rest then some (-Int.ofNat (natOfDigits (rest.filter (fun c => c != '_'))))
    else Option.none
  | rest =>
    if digitsOk rest then some (Int.ofNat (natOfDigits (rest.filter (fun c => c != '_'))))
    else Option.none

/-- Python `int` of a finite float: truncation toward zero. -/
def ratTrunc (q : ℚ) : Int := Int.tdiv q.num (Int.ofNat q.den)

/-- Python `int(x)` over a loose value; `Option.none` models a raised
`ValueError` or `TypeError`. -/
def pyIntConv : PyVal → Option Int
  | PyVal.none => Option.none
  | PyVal.vbool b => some (if b then 1 else 0)
  | PyVal.vint n => some n
  | PyVal.vfloat q => some (ratTrunc q)
  | PyVal.vstr s => parsePyInt s

/-- `int(v) if v is not None else 0` wrapped in
`try/except (ValueError, TypeError) -> 0`: the normalization producing
`cost_int` (lines 162-166). -/
def coerceInt (v : PyVal) : Int :=
  match v with
  | PyVal.none => 0
  | w => (pyIntConv w).getD 0

/-- `str(int(v)) if v is not None else "0"` wrapped in
`try/except (ValueError, TypeError) -> "0"`: the normalization producing
`cost_val`, `power_val`, `counter_val` and `life_val` (lines 139-157). -/
def coerceIntStr (v : PyVal) : String :=
  match v with
  | PyVal.none => "0"
  | w =>
    match pyIntConv w with
    | some n => toString n
    | Option.none => "0"

/-- The embedded `face.front` presentation sub-object. -/
structure FaceFront where
  name : String
  type : String
  cost : Int
  isHorizontal : Bool
  image : String
deriving DecidableEq, Repr

/-- The `face` wrapper holding the front presentation object. -/
structure Face where
  front : FaceFront
deriving DecidableEq, Repr

/-- One entry of `CardList.json`, with the fields the dict literal of
`convert_to_tcg_arena` assembles (lines 169-194). -/
structure NormalizedRecord where
  id : String
  name : String
  type : String
  face : Face
  Color : String
  cost : Int
  isHorizontal : Bool
  Cost : String
  Power : String
  Counter : String
  Life : String
  Attribute : String
  Subtypes : String
  Text : String
  Rarity : String
  Set : String
deriving DecidableEq, Repr

/-- The body of the `convert_to_tcg_arena` loop for one record with a
non-empty `card_set_id`: defaults for name and category, numeric
normalization, set-code derivation and the `Stage` layout flag. -/
def convertCard (r : RawRecord) : NormalizedRecord :=
  let card_set_id := keyOf r
  let card_name := r.card_name.getD "Unknown"
  let card_type := r.card_type.getD "Character"
  let set_c := set_code card_set_id
  let cost_val := coerceIntStr r.card_cost
  let power_val := coerceIntStr r.card_power
  let counter_val := coerceIntStr r.counter_amount
  let life_val := coerceIntStr r.life
  let is_horizontal := card_type == "Stage"
  let cost_int := coerceInt r.card_cost
  let image_url := r.card_image.getD ""
  ⟨card_set_id, card_name, card_type,
   ⟨⟨card_name, card_type, cost_int, is_horizontal, image_url⟩⟩,
   r.card_color.getD "", cost_int, is_horizontal,
   cost_val, power_val, counter_val, life_val,
   r.attr.getD "", r.sub_types.getD "", r.card_text.getD "",
   r.rarity.getD "", set_c⟩

/-- Python dict assignment `d[k] = v` on an insertion-ordered mapping:
overwrite in place when the key is present, append otherwise. -/
def dictSet (d : List (String × NormalizedRecord)) (k : String) (v : NormalizedRecord) :
    List (String × NormalizedRecord) :=
  if d.any (fun p => p.1 == k) then d.map (fun p => if p.1 == k then (k, v) else p)
  else d ++ [(k, v)]

/-- `convert_to_tcg_arena`: skip records whose `card_set_id` is absent or
empty, convert the rest and key them by `card_set_id` in an
insertion-ordered mapping. -/
def convert_to_tcg_arena (raw_cards : List RawRecord) : List (String × NormalizedRecord) :=
  raw_cards.foldl (fun d r => if keyOf r = "" then d else dictSet d (keyOf r) (convertCard r)) []

/-- The comparison behind
`raw_cards.sort(key=lambda c: (c.get("set_id", ""), c.get("card_set_id", "")))`:
lexicographic on the pair of string keys. -/
def cardLe (a b : RawRecord) : Bool :=
  let sa := a.set_id.getD ""
  let sb := b.set_id.getD ""
  if sa = sb then decide (keyOf a ≤ keyOf b) else decide (sa < sb)

/-- Stable insertion: place `r` after every already placed record that
compares `≤ r`, modelling the stability of Python's `list.sort`. -/
def insertCard (r : RawRecord) : List RawRecord → List RawRecord
  | [] => [r]
  | x :: xs => if cardLe x r then x :: insertCard r xs else r :: x :: xs

/-- The sort of `main` (line 212), as a stable insertion sort. -/
def sortCards (l : List RawRecord) : List RawRecord :=
  l.foldl (fun acc r => insertCard r acc) []

/-- Outcome of `main` after collection: either `sys.exit(code)` with a
non-zero code, or a normal run that writes the converted mapping and ends
with status 0. -/
inductive MainResult where
  | exitWith (code : Nat)
  | success (output : List (String × NormalizedRecord))
deriving DecidableEq, Repr

/-- The decision logic of `main` from the collected record list on
(lines 205-221): `sys.exit(1)` when nothing was fetched, otherwise sort,
convert and write. -/
def mainRun (raw_cards : List RawRecord) : MainResult :=
  if raw_cards.isEmpty then MainResult.exitWith 1
  else MainResult.success (convert_to_tcg_arena (sortCards raw_cards))

/-- Build a raw record with the commonly exercised fields set and every
other key absent. -/
def mkRaw (cid img name ty : Option String) (cost : PyVal) : RawRecord :=
  ⟨cid, img, name, ty, cost, PyVal.none, PyVal.none, PyVal.none,
   Option.none, Option.none, Option.none, Option.none, Option.none,
   Option.none, Option.none, Option.none⟩

/-- A parallel-art record bearing identifier `"A"`: its image id contains
the variant marker `"_p"`. -/
def cexVariant : RawRecord :=
  mkRaw (some "A") (some "card_123_p1.png") Option.none Option.none PyVal.none

/-- A marker-free record bearing the same identifier `"A"`. -/
def cexClean : RawRecord :=
  mkRaw (some "A") Option.none (some "clean") Option.none PyVal.none

/-- First record of the end-to-end scenario of the spec. -/
def rawLuffy : RawRecord :=
  mkRaw (some "OP01-001") Option.none (some "Luffy") (some "Leader") PyVal.none

/-- Second record of the end-to-end scenario: duplicate identifier. -/
def rawLuffyDup : RawRecord :=
  mkRaw (some "OP01-001") Option.none (some "Luffy-dup") Option.none PyVal.none

/-- A record with category `"Stage"`. -/
def rawStage : RawRecord :=
  mkRaw (some "S-1") Option.none Option.none (some "Stage") PyVal.none

/-- A record with no identifier at all. -/
def rawNoId : RawRecord :=
  mkRaw Option.none Option.none (some "ghost") Option.none PyVal.none

/-- A record with an identifier but no name, category or numeric data. -/
def rawNoName : RawRecord :=
  mkRaw (some "X-1") Option.none Option.none Option.none PyVal.none

/-- A record whose cost field holds the (valid) integer `-1`. -/
def rawNegCost : RawRecord :=
  mkRaw (some "OP01-002") Option.none Option.none Option.none (PyVal.vint (-1))

theorem addCards_cons_filtered {c : RawRecord} (h : filteredOut c = true)
    (cs : List RawRecord) (seen : List String) :
    addCards (c :: cs) seen = addCards cs seen := by
  simp [addCards, h]

theorem addCards_cons_new {c : RawRecord} {seen : List String} (h : filteredOut c = false)
    (h1 : keyOf c ≠ "") (h2 : keyOf c ∉ seen) (cs : List RawRecord) :
    addCards (c :: cs) seen =
      ((addCards cs (keyOf c :: seen)).1, c :: (addCards cs (keyOf c :: seen)).2) := by
  simp [addCards, h, h1, h2]

theorem addCards_cons_old {c : RawRecord} {seen : List String} (h : filteredOut c = false)
    (h2 : ¬(keyOf c ≠ "" ∧ keyOf c ∉ seen)) (cs : List RawRecord) :
    addCards (c :: cs) seen = addCards cs seen := by
  simp only [addCards, h, Bool.false_eq_true, if_false, if_neg h2]

theorem addCards_mem : ∀ (l : List RawRecord) (seen : List String) (r : RawRecord),
    r ∈ (addCards l seen).2 → keyOf r ≠ "" ∧ filteredOut r = false ∧ keyOf r ∉ seen
  | [], seen, r => by simp [addCards]
  | c :: cs, seen, r => by
    cases hf : filteredOut c with
    | true =>
      rw [addCards_cons_filtered hf]
      exact addCards_mem cs seen r
    | false =>
      by_cases hn : keyOf c ≠ "" ∧ keyOf c ∉ seen
      · rw [addCards_cons_new hf hn.1 hn.2]
        intro hm
        rcases List.mem_cons.1 hm with h | h
        · subst h
          exact ⟨hn.1, hf, hn.2⟩
        · have ih := addCards_mem cs (keyOf c :: seen) r h
          exact ⟨ih.1, ih.2.1, fun hs => ih.2.2 (List.mem_cons_of_mem _ hs)⟩
      · rw [addCards_cons_old hf hn]
        exact addCards_mem cs seen r

theorem addCards_keys_nodup : ∀ (l : List RawRecord) (seen : List String),
    ((addCards l seen).2.map keyOf).Nodup
  | [], seen => by simp [addCards]
  | c :: cs, seen => by
    cases hf : filteredOut c with
    | true =>
      rw [addCards_cons_filtered hf]
      exact addCards_keys_nodup cs seen
    | false =>
      by_cases hn : keyOf c ≠ "" ∧ keyOf c ∉ seen
      · rw [addCards_cons_new hf hn.1 hn.2]
        rw [List.map_cons, List.nodup_cons]
        constructor
        · intro hmem
          rcases List.mem_map.1 hmem with ⟨r, hr, hkey⟩
          exact (addCards_mem cs (keyOf c :: seen) r hr).2.2
            (hkey ▸ List.mem_cons_self _ _)
        · exact addCards_keys_nodup cs (keyOf c :: seen)
      · rw [addCards_cons_old hf hn]
        exact addCards_keys_nodup cs seen

theorem addCards_find? : ∀ (l : List RawRecord) (seen : List String) (cid : String),
    cid ≠ "" → cid ∉ seen →
    (addCards l seen).2.find? (fun r => keyOf r == cid) =
      (l.filter (fun r => !filteredOut r)).find? (fun r => keyOf r == cid)
  | [], seen, cid => by simp [addCards]
  | c :: cs, seen, cid => by
    intro hc hs
    cases hf : filteredOut c with
    | true =>
      rw [addCards_cons_filtered hf, List.filter_cons_of_neg (by simp [hf])]
      exact addCards_find? cs seen cid hc hs
    | false =>
      rw [List.filter_cons_of_pos (by simp [hf])]
      by_cases hn : keyOf c ≠ "" ∧ keyOf c ∉ seen
      · rw [addCards_cons_new hf hn.1 hn.2]
        by_cases he : keyOf c = cid
        · simp [List.find?_cons, he]
        · rw [List.find?_cons, List.find?_cons]
          have hb : (keyOf c == cid) = false := beq_eq_false_iff_ne.2 he
          rw [hb]
          exact addCards_find? cs (keyOf c :: seen) cid hc
            (by
              intro hmem
              rcases List.mem_cons.1 hmem with h | h
              · exact he h.symm
              · exact hs h)
      · rw [addCards_cons_old hf hn]
        have he : keyOf c ≠ cid := by
          rcases not_and_or.1 hn with h | h
          · have h0 : keyOf c = "" := not_not.1 h
            exact fun hcc => hc (hcc ▸ h0)
          · have h0 : keyOf c ∈ seen := not_not.1 h
            exact fun hcc => hs (hcc ▸ h0)
        rw [List.find?_cons]
        have hb : (keyOf c == cid) = false := beq_eq_false_iff_ne.2 he
        rw [hb]
        exact addCards_find? cs seen cid hc hs

theorem addCards_append : ∀ (xs ys : List RawRecord) (seen : List String),
    addCards (xs ++ ys) seen =
      ((addCards ys (addCards xs seen).1).1,
       (addCards xs seen).2 ++ (addCards ys (addCards xs seen).1).2)
  | [], ys, seen => by simp [addCards]
  | c :: cs, ys, seen => by
    cases hf : filteredOut c with
    | true =>
      rw [List.cons_append, addCards_cons_filtered hf, addCards_cons_filtered hf]
      exact addCards_append cs ys seen
    | false =>
      by_cases hn : keyOf c ≠ "" ∧ keyOf c ∉ seen
      · rw [List.cons_append, addCards_cons_new hf hn.1 hn.2,
            addCards_cons_new hf hn.1 hn.2, addCards_append cs ys (keyOf c :: seen)]
        rfl
      · rw [List.cons_append, addCards_cons_old hf hn, addCards_cons_old hf hn]
        exact addCards_append cs ys seen

theorem addCards_remove_filtered (xs ys : List RawRecord) (p : RawRecord)
    (seen : List String) (hp : filteredOut p = true) :
    addCards (xs ++ p :: ys) seen = addCards (xs ++ ys) seen := by
  rw [addCards_append, addCards_append, addCards_cons_filtered hp]

theorem dictSet_keys (d : List (String × NormalizedRecord)) (k a : String)
    (v : NormalizedRecord) :
    a ∈ (dictSet d k v).map Prod.fst ↔ a ∈ d.map Prod.fst ∨ a = k := by
  unfold dictSet
  by_cases h : d.any (fun p => p.1 == k)
  · rw [if_pos h]
    have hk : k ∈ d.map Prod.fst := by
      rcases List.any_eq_true.1 h with ⟨p, hp, hpk⟩
      exact List.mem_map.2 ⟨p, hp, beq_iff_eq.1 hpk⟩
    have hmaps : (d.map (fun p => if p.1 == k then (k, v) else p)).map Prod.fst
        = d.map Prod.fst := by
      rw [List.map_map]
      apply List.map_congr_left
      intro p _
      by_cases hpk : p.1 = k
      · simp [Function.comp_apply, hpk]
      · simp [Function.comp_apply, hpk]
    rw [hmaps]
    constructor
    · exact Or.inl
    · rintro (h1 | rfl)
      · exact h1
      · exact hk
  · rw [if_neg h]
    simp [List.map_append]

theorem convert_keys :
    ∀ (l : List RawRecord) (d : List (String × NormalizedRecord)) (a : String),
    a ∈ (l.foldl (fun d r =>
        if keyOf r = "" then d else dictSet d (keyOf r) (convertCard r)) d).map Prod.fst ↔
      a ∈ d.map Prod.fst ∨ (a ≠ "" ∧ ∃ x ∈ l, keyOf x = a)
  | [], d, a => by simp
  | r :: l, d, a => by
    rw [List.foldl_cons]
    by_cases hk : keyOf r = ""
    · rw [if_pos hk, convert_keys l d a]
      simp only [List.mem_cons]
      constructor
      · rintro (h | ⟨ha, x, hx, hxa⟩)
        · exact Or.inl h
        · exact Or.inr ⟨ha, x, Or.inr hx, hxa⟩
      · rintro (h | ⟨ha, x, hx | hx, hxa⟩)
        · exact Or.inl h
        · exact absurd (hxa ▸ (hx ▸ hk)) ha
        · exact Or.inr ⟨ha, x, hx, hxa⟩
    · rw [if_neg hk, convert_keys l (dictSet d (keyOf r) (convertCard r)) a, dictSet_keys]
      simp only [List.mem_cons]
      constructor
      · rintro ((h | rfl) | ⟨ha, x, hx, hxa⟩)
        · exact Or.inl h
        · exact Or.inr ⟨hk, r, Or.inl rfl, rfl⟩
        · exact Or.inr ⟨ha, x, Or.inr hx, hxa⟩
      · rintro (h | ⟨ha, x, rfl | hx, hxa⟩)
        · exact Or.inl (Or.inl h)
        · exact Or.inl (Or.inr hxa.symm)
        · exact Or.inr ⟨ha, x, hx, hxa⟩

theorem convert_skip (l1 l2 : List RawRecord) (r : RawRecord) (hr : keyOf r = "") :
    convert_to_tcg_arena (l1 ++ r :: l2) = convert_to_tcg_arena (l1 ++ l2) := by
  unfold convert_to_tcg_arena
  rw [List.foldl_append, List.foldl_append, List.foldl_cons, if_pos hr]

theorem containsSub_single (c : Char) : ∀ l : List Char, containsSub [c] l = true ↔ c ∈ l
  | [] => by simp [containsSub]
  | h :: t => by
    rw [containsSub]
    simp only [leadsWith, Bool.and_true, Bool.or_eq_true, beq_iff_eq, List.mem_cons,
      containsSub_single c t]

theorem dropWhile_all (p : Char → Bool) :
    ∀ (l1 l2 : List Char), (∀ a ∈ l1, p a = true) →
    (l1 ++ l2).dropWhile p = l2.dropWhile p
  | [], _, _ => rfl
  | a :: l1, l2, h => by
    rw [List.cons_append, List.dropWhile_cons, if_pos (h a (List.mem_cons_self a l1))]
    exact dropWhile_all p l1 l2 (fun x hx => h x (List.mem_cons_of_mem _ hx))

theorem beforeLast_eq (p q : List Char) (hq : '-' ∉ q) :
    beforeLast '-' (p ++ '-' :: q) = p := by
  unfold beforeLast
  rw [List.reverse_append, List.reverse_cons, List.append_assoc]
  rw [dropWhile_all _ q.reverse _ (by
    intro a ha
    have : a ∈ q := List.mem_reverse.1 ha
    simp only [bne_iff_ne, ne_eq]
    exact fun had => hq (had ▸ this))]
  rw [List.singleton_append, List.dropWhile_cons, if_neg (by simp)]
  simp

theorem strContains_of_split (s : String) (p q : List Char)
    (hs : s.data = p ++ '-' :: q) : strContains s "-" = true := by
  unfold strContains
  have hd : "-".data = ['-'] := rfl
  rw [hd, hs, containsSub_single]
  simp

theorem strContains_dash_iff (s : String) : strContains s "-" = true ↔ '-' ∈ s.data := by
  unfold strContains
  have hd : "-".data = ['-'] := rfl
  rw [hd, containsSub_single]

/-- C1 counterexample: the coercion does not clamp to non-negative values.
A record whose `card_cost` holds the valid integer `-1` is converted with
cost `-1` (and textual cost `"-1"`), a negative value, refuting the claim
that every successfully converted value is non-negative. -/
theorem coercion_nonneg_counterexample :
    coerceInt (PyVal.vint (-1)) = -1 ∧ ¬(0 ≤ coerceInt (PyVal.vint (-1))) ∧
    (convertCard rawNegCost).cost = -1 ∧ (convertCard rawNegCost).Cost = "-1" := by
  decide

/-- C1 (amended): for each of the four numeric fields, the coercion is a
total function (it never raises) and always yields an integer: a value
that is absent (`None`) or fails integer conversion resolves to zero, and
a successfully converted value resolves to the converted integer.  The
last block ties the one coercion function to all four fields of the
transformed record. -/
theorem coercion_totality (r : RawRecord) (v : PyVal) :
    ((v = PyVal.none ∨ pyIntConv v = Option.none) →
      coerceInt v = 0 ∧ coerceIntStr v = "0") ∧
    (∀ n : Int, pyIntConv v = some n → coerceInt v = n ∧ coerceIntStr v = toString n) ∧
    ((convertCard r).cost = coerceInt r.card_cost ∧
     (convertCard r).face.front.cost = coerceInt r.card_cost ∧
     (convertCard r).Cost = coerceIntStr r.card_cost ∧
     (convertCard r).Power = coerceIntStr r.card_power ∧
     (convertCard r).Counter = coerceIntStr r.counter_amount ∧
     (convertCard r).Life = coerceIntStr r.life) := by
  refine ⟨?_, ?_, rfl, rfl, rfl, rfl, rfl, rfl⟩
  · rintro (rfl | hnone)
    · exact ⟨rfl, rfl⟩
    · cases v with
      | none => exact ⟨rfl, rfl⟩
      | vbool b => simp [coerceInt, coerceIntStr, hnone]
      | vint n => simp [coerceInt, coerceIntStr, hnone]
      | vfloat q => simp [coerceInt, coerceIntStr, hnone]
      | vstr s => simp [coerceInt, coerceIntStr, hnone]
  · intro n hn
    cases v with
    | none => exact absurd hn (by simp [pyIntConv])
    | vbool b => simp [coerceInt, coerceIntStr, hn]
    | vint m => simp [coerceInt, coerceIntStr, hn]
    | vfloat q => simp [coerceInt, coerceIntStr, hn]
    | vstr s => simp [coerceInt, coerceIntStr, hn]

/-- C1 witness: `"abc"` coerces to zero, the float `3.0` to the integer
`3`, and an absent value to zero. -/
theorem coercion_totality_witness :
    (coerceInt (PyVal.vstr "abc") = 0 ∧ coerceIntStr (PyVal.vstr "abc") = "0") ∧
    (coerceInt (PyVal.vfloat 3) = 3 ∧ coerceIntStr (PyVal.vfloat 3) = toString (3 : Int)) ∧
    (coerceInt PyVal.none = 0 ∧ coerceIntStr PyVal.none = "0") :=
  ⟨(coercion_totality rawLuffy (PyVal.vstr "abc")).1 (Or.inr (by decide)),
   (coercion_totality rawLuffy (PyVal.vfloat 3)).2.1 3 (by decide),
   (coercion_totality rawLuffy PyVal.none).1 (Or.inl rfl)⟩

/-- C2 counterexample: the record retained for an identifier is not always
the first-seen record bearing it.  In the stream `[cexVariant, cexClean]`
the first record bearing `"A"` is `cexVariant`, yet the Collector retains
`cexClean`, because `cexVariant` is excluded by the variant filter before
deduplication. -/
theorem dedup_first_seen_counterexample :
    keyOf cexVariant = "A" ∧
    [cexVariant, cexClean].find? (fun r => keyOf r == "A") = some cexVariant ∧
    (addCards [cexVariant, cexClean] []).2 = [cexClean] ∧
    cexVariant ≠ cexClean := by
  decide

/-- C2 (amended): for any input stream, the Collector's output contains
each non-empty `card_set_id` at most once, records with an empty or
absent `card_set_id` are never appended, and the record retained for each
non-empty identifier is the first-seen record bearing it among the
records that pass the variant-marker filter. -/
theorem dedup_first_surviving (l : List RawRecord) (cid : String) (hc : cid ≠ "") :
    ((addCards l []).2.map keyOf).Nodup ∧
    (∀ r ∈ (addCards l []).2, keyOf r ≠ "") ∧
    (addCards l []).2.find? (fun r => keyOf r == cid) =
      (l.filter (fun r => !filteredOut r)).find? (fun r => keyOf r == cid) := by
  refine ⟨addCards_keys_nodup l [], ?_, ?_⟩
  · intro r hr
    exact (addCards_mem l [] r hr).1
  · exact addCards_find? l [] cid hc (by simp)

/-- C2 witness: on the two-record stream bearing the identifier `"A"`,
the record the Collector retains for `"A"` is the first filter-surviving
record bearing it. -/
theorem dedup_first_surviving_witness :
    (addCards [cexVariant, cexClean] []).2.find? (fun r => keyOf r == "A") =
      ([cexVariant, cexClean].filter (fun r => !filteredOut r)).find?
        (fun r => keyOf r == "A") :=
  (dedup_first_surviving [cexVariant, cexClean] "A" (by decide)).2.2

/-- C3: a record whose image-reference field contains the substring
`"_p"` never appears in the Collector's output, whatever the stream, the
seen set and the record's identifier. -/
theorem variant_records_excluded (l : List RawRecord) (seen : List String)
    (r : RawRecord) (h : filteredOut r = true) :
    r ∉ (addCards l seen).2 := by
  intro hm
  have hfalse := (addCards_mem l seen r hm).2.1
  rw [h] at hfalse
  exact Bool.noConfusion hfalse

/-- C3 witness: the parallel-art record is absent from the output of the
stream containing it, even though its identifier `"A"` is fresh. -/
theorem variant_records_excluded_witness :
    cexVariant ∉ (addCards [cexVariant, cexClean] []).2 :=
  variant_records_excluded [cexVariant, cexClean] [] cexVariant (by decide)

/-- C4: the derived group code is the identifier's segment before the
last `"-"`; with no `"-"` present it is the whole identifier; and the
`Set` field of every transformed record is exactly this group code of its
identifier. -/
theorem group_code_spec (s : String) :
    (∀ p q : List Char, s.data = p ++ '-' :: q → '-' ∉ q → set_code s = String.mk p) ∧
    ('-' ∉ s.data → set_code s = s) ∧
    (∀ r : RawRecord, (convertCard r).Set = set_code (keyOf r)) := by
  refine ⟨?_, ?_, fun r => rfl⟩
  · intro p q hs hq
    unfold set_code
    rw [if_pos (strContains_of_split s p q hs), hs, beforeLast_eq p q hq]
  · intro h
    unfold set_code
    rw [if_neg (fun hc => h ((strContains_dash_iff s).1 hc))]

/-- C4 witness: `"OP01-077"` yields group code `"OP01"` and `"PROMO"`
yields `"PROMO"`; the `Set` field of the scenario record agrees. -/
theorem group_code_spec_witness :
    set_code "OP01-077" = "OP01" ∧ set_code "PROMO" = "PROMO" ∧
    (convertCard rawLuffy).Set = set_code (keyOf rawLuffy) := by
  refine ⟨?_, ?_, (group_code_spec "OP01-001").2.2 rawLuffy⟩
  · have h := (group_code_spec "OP01-077").1 "OP01".data "077".data (by decide) (by decide)
    rw [h]
  · exact (group_code_spec "PROMO").2.1 (by decide)

/-- C5: the layout flag of a transformed record (top level and inside
`face.front`) is true exactly when the category label equals `"Stage"`;
an absent category defaults to `"Character"` and yields false. -/
theorem layout_flag_stage (r : RawRecord) (t : String) :
    (convertCard r).isHorizontal = ((r.card_type.getD "Character") == "Stage") ∧
    (convertCard r).face.front.isHorizontal = (convertCard r).isHorizontal ∧
    ((convertCard r).isHorizontal = true ↔ (convertCard r).type = "Stage") ∧
    (r.card_type = some t → ((convertCard r).isHorizontal = true ↔ t = "Stage")) := by
  refine ⟨rfl, rfl, ?_, ?_⟩
  · show ((r.card_type.getD "Character") == "Stage") = true ↔ _
    rw [beq_iff_eq]
    exact Iff.rfl
  · intro ht
    show ((r.card_type.getD "Character") == "Stage") = true ↔ t = "Stage"
    rw [ht]
    simp

/-- C5 witness: a `"Stage"` record is flagged horizontal, a `"Leader"`
record is not. -/
theorem layout_flag_stage_witness :
    (convertCard rawStage).isHorizontal = true ∧
    (convertCard rawLuffy).isHorizontal = false := by
  constructor
  · exact ((layout_flag_stage rawStage "Stage").2.2.2 rfl).mpr rfl
  · have h := (layout_flag_stage rawLuffy "Leader").2.2.2 rfl
    cases hb : (convertCard rawLuffy).isHorizontal
    · rfl
    · exact absurd (h.mp hb) (by decide)

/-- C6: the end-to-end scenario.  The two raw records sharing identifier
`"OP01-001"` are collected then transformed into a mapping with exactly
one entry, keyed `"OP01-001"`, whose name is `"Luffy"` (from the
first-seen record) and whose cost is zero (from the null `card_cost`). -/
theorem end_to_end_scenario :
    convert_to_tcg_arena ((addCards [rawLuffy, rawLuffyDup] []).2) =
      [("OP01-001", convertCard rawLuffy)] ∧
    (convertCard rawLuffy).name = "Luffy" ∧
    (convertCard rawLuffy).cost = 0 ∧
    (convertCard rawLuffy).Cost = "0" ∧
    rawLuffy.card_cost = PyVal.none := by
  decide

/-- C7: a record with an absent or empty `card_set_id` contributes
nothing to the Transformer's output (removing it from the input changes
nothing), and the key set of the output mapping is exactly the set of
non-empty `card_set_id` values of the input records. -/
theorem transformer_skips_missing_id (l1 l2 : List RawRecord) (r : RawRecord)
    (k : String) (hr : keyOf r = "") :
    convert_to_tcg_arena (l1 ++ r :: l2) = convert_to_tcg_arena (l1 ++ l2) ∧
    (k ∈ (convert_to_tcg_arena (l1 ++ l2)).map Prod.fst ↔
      (k ≠ "" ∧ ∃ x ∈ l1 ++ l2, keyOf x = k)) := by
  refine ⟨convert_skip l1 l2 r hr, ?_⟩
  have h := convert_keys (l1 ++ l2) [] k
  rw [convert_to_tcg_arena]
  simpa using h

/-- C7 witness: dropping the identifier-less record from the input leaves
the output mapping unchanged. -/
theorem transformer_skips_missing_id_witness :
    convert_to_tcg_arena ([rawLuffy] ++ rawNoId :: []) =
      convert_to_tcg_arena ([rawLuffy] ++ []) :=
  (transformer_skips_missing_id [rawLuffy] [] rawNoId "OP01-001" (by decide)).1

/-- C8: the run ends with a non-zero exit status exactly when the
Collector returned no records; with at least one record it proceeds to
transformation and writing and ends with status zero. -/
theorem exit_code_nonzero_iff_empty (raw : List RawRecord) :
    ((∃ c, mainRun raw = MainResult.exitWith c ∧ c ≠ 0) ↔ raw = []) ∧
    (raw ≠ [] → mainRun raw = MainResult.success (convert_to_tcg_arena (sortCards raw))) := by
  cases raw with
  | nil =>
    refine ⟨⟨fun _ => rfl, fun _ => ⟨1, rfl, one_ne_zero⟩⟩, fun h => absurd rfl h⟩
  | cons a l =>
    refine ⟨⟨?_, fun h => absurd h (by simp)⟩, fun _ => rfl⟩
    rintro ⟨c, hc, _⟩
    simp [mainRun] at hc

/-- C8 witness: a one-record collection proceeds to a successful write. -/
theorem exit_code_nonzero_iff_empty_witness :
    mainRun [rawLuffy] = MainResult.success (convert_to_tcg_arena (sortCards [rawLuffy])) :=
  (exit_code_nonzero_iff_empty [rawLuffy]).2 (by simp)

/-- C9: a filtered variant record is fully transparent to the Collector:
it adds nothing to the seen set (the whole run is unchanged by removing
it), and a later marker-free record bearing the same non-empty
identifier, fresh among the surviving records, is still collected. -/
theorem variant_skip_transparent (l1 l2 : List RawRecord) (p r : RawRecord)
    (seen : List String) (hp : filteredOut p = true) (hr : filteredOut r = false)
    (hkey : keyOf r ≠ "") (hseen : keyOf r ∉ seen)
    (hfresh : ∀ x ∈ l1 ++ l2, filteredOut x = false → keyOf x ≠ keyOf r) :
    addCards (l1 ++ p :: (l2 ++ [r])) seen = addCards (l1 ++ (l2 ++ [r])) seen ∧
    r ∈ (addCards (l1 ++ p :: (l2 ++ [r])) seen).2 := by
  have heq : addCards (l1 ++ p :: (l2 ++ [r])) seen = addCards (l1 ++ (l2 ++ [r])) seen :=
    addCards_remove_filtered l1 (l2 ++ [r]) p seen hp
  refine ⟨heq, ?_⟩
  rw [heq]
  have hnone : ∀ (l : List RawRecord), (∀ x ∈ l, filteredOut x = false → keyOf x ≠ keyOf r) →
      (l.filter (fun x => !filteredOut x)).find? (fun x => keyOf x == keyOf r) =
        Option.none := by
    intro l hl
    rw [List.find?_eq_none]
    intro x hx
    have hx1 : x ∈ l := (List.mem_filter.1 hx).1
    have hx2 : filteredOut x = false := by simpa using (List.mem_filter.1 hx).2
    simpa using hl x hx1 hx2
  have hfilter : ((l1 ++ (l2 ++ [r])).filter (fun x => !filteredOut x)).find?
      (fun x => keyOf x == keyOf r) = some r := by
    rw [List.filter_append, List.filter_append, List.find?_append, List.find?_append]
    rw [hnone l1 (fun x hx => hfresh x (List.mem_append.2 (Or.inl hx)))]
    rw [hnone l2 (fun x hx => hfresh x (List.mem_append.2 (Or.inr hx)))]
    simp [List.filter, hr, List.find?]
  have hfind := addCards_find? (l1 ++ (l2 ++ [r])) seen (keyOf r) hkey hseen
  rw [hfilter] at hfind
  exact List.mem_of_find?_eq_some hfind

/-- C9 witness: the variant record bearing `"A"` precedes a marker-free
record bearing `"A"`, and the later record is still collected. -/
theorem variant_skip_transparent_witness :
    cexClean ∈ (addCards ([] ++ cexVariant :: ([] ++ [cexClean])) []).2 :=
  (variant_skip_transparent [] [] cexVariant cexClean [] (by decide) (by decide)
    (by decide) (by simp) (by simp)).2

/-- C10: when `card_name` is absent the Transformer substitutes
`"Unknown"`, and when `card_type` is absent it substitutes `"Character"`
(hence the layout flag is false), in both the top level and the embedded
`face.front` sub-object; and a record with a non-empty identifier becomes
exactly the entry `(identifier, converted record)` of the mapping. -/
theorem default_name_and_type (r : RawRecord) :
    (r.card_name = Option.none →
      (convertCard r).name = "Unknown" ∧ (convertCard r).face.front.name = "Unknown") ∧
    (r.card_type = Option.none →
      (convertCard r).type = "Character" ∧ (convertCard r).face.front.type = "Character" ∧
      (convertCard r).isHorizontal = false ∧
      (convertCard r).face.front.isHorizontal = false) ∧
    (keyOf r ≠ "" → convert_to_tcg_arena [r] = [(keyOf r, convertCard r)]) := by
  refine ⟨?_, ?_, ?_⟩
  · intro h
    constructor
    · show r.card_name.getD "Unknown" = "Unknown"
      rw [h]
      rfl
    · show r.card_name.getD "Unknown" = "Unknown"
      rw [h]
      rfl
  · intro h
    refine ⟨?_, ?_, ?_, ?_⟩
    · show r.card_type.getD "Character" = "Character"
      rw [h]
      rfl
    · show r.card_type.getD "Character" = "Character"
      rw [h]
      rfl
    · show (r.card_type.getD "Character" == "Stage") = false
      rw [h]
      decide
    · show (r.card_type.getD "Character" == "Stage") = false
      rw [h]
      decide
  · intro h
    simp only [convert_to_tcg_arena, List.foldl_cons, List.foldl_nil, if_neg h]
    simp [dictSet]

/-- C10 witness: the record with identifier `"X-1"` and no name or
category gets the defaults in both places and the expected entry. -/
theorem default_name_and_type_witness :
    (convertCard rawNoName).name = "Unknown" ∧
    (convertCard rawNoName).face.front.name = "Unknown" ∧
    (convertCard rawNoName).type = "Character" ∧
    (convertCard rawNoName).isHorizontal = false ∧
    convert_to_tcg_arena [rawNoName] = [(keyOf rawNoName, convertCard rawNoName)] := by
  have h := default_name_and_type rawNoName
  exact ⟨(h.1 rfl).1, (h.1 rfl).2, (h.2.1 rfl).1, (h.2.1 rfl).2.2.1, h.2.2 (by decide)⟩

end Scrape
